import Mathlib

/-!
Shallow embedding of `src/bot.py` (a Telegram wallet-tracker bot).

The embedded fragments are the ones the verified claims are about:
  - `format_wallet_analysis` (bot.py lines 137-232): the wallet-activity
    aggregation and report construction;
  - `get_trending_base` (bot.py lines 116-128): the trending-pairs
    filter/sort/truncate;
  - `handle_message` (bot.py lines 295-309): free-text routing with the
    wallet-address regex check.

Modelling conventions:
  - Python dicts for API records become structures with `Option` fields;
    `d.get(k, default)` becomes `Option.getD`.
  - Python float arithmetic is modelled over `ℚ` (the spec disclaims any
    precision guarantee; all claims are about exact bookkeeping).
  - The insertion-ordered Python dict `tokens_seen` becomes an association
    list where an update rewrites the first (unique) matching key and an
    insert appends at the end, exactly dict semantics.
  - `sorted(..., key=k, reverse=True)` (a stable descending sort) becomes
    `List.insertionSort` with the relation "key of the left is ≥ key of the
    right", which is likewise stable.
  - An uncaught Python exception inside `format_wallet_analysis` is a
    distinct result constructor (`unboundLocalError`); inside the guarded
    `try` of `get_trending_base` it makes the function return `[]`, as the
    `except` clause does.
  - The numeric fields `value` and `tokenDecimal` arrive from the API as
    decimal strings and are read with `int(...)`; the model carries the
    parsed integer directly (`Option Nat`), since no claim concerns
    malformed transfer numerals.
-/

namespace Bt

/-! ### Python string primitives -/

/-- Whitespace as recognized by Python `str.strip()` and `str.isspace()`
(CPython's `Py_UNICODE_ISSPACE`), dumped from CPython 3.11 / Unicode 14.0:
the ASCII codepoints 0x09-0x0d and 0x1c-0x20, NEL 0x85, NBSP 0xa0, the
Ogham space 0x1680, the 0x2000-0x200a spaces, the line and paragraph
separators 0x2028-0x2029, the narrow NBSP 0x202f, the medium mathematical
space 0x205f, and the ideographic space 0x3000. -/
def isPySpace (c : Char) : Bool :=
  let n := c.toNat
  (9 ≤ n && n ≤ 13) || (28 ≤ n && n ≤ 32) || n == 133 || n == 160 ||
  n == 5760 || (8192 ≤ n && n ≤ 8202) || n == 8232 || n == 8233 ||
  n == 8239 || n == 8287 || n == 12288

/-- Whitespace tolerated around a numeral by Python `float()`: CPython maps
non-ASCII whitespace to a space before parsing, while in the ASCII range
only 0x09-0x0d and 0x20 are skipped — the separators 0x1c-0x1f, although
stripped by `str.strip()`, make `float()` raise (verified against
CPython 3.11: `float("\x1c5")` raises while `"\x1c5".strip()` is `"5"`). -/
def isFloatSpace (c : Char) : Bool :=
  isPySpace c && !(28 ≤ c.toNat && c.toNat ≤ 31)

/-- Drop characters satisfying `p` from both ends of a character list. -/
def stripEnds (p : Char → Bool) (l : List Char) : List Char :=
  ((l.dropWhile p).reverse.dropWhile p).reverse

/-- Model of Python `str.strip()`: drop whitespace from both ends. -/
def pyStrip (s : String) : String :=
  ⟨stripEnds isPySpace s.data⟩

/-- Model of Python `str.lower()` on ASCII text. -/
def pyLower (s : String) : String :=
  ⟨s.data.map Char.toLower⟩

/-- A hexadecimal digit, as in the character class `[a-fA-F0-9]`. -/
def isHexChar (c : Char) : Bool :=
  ('0' ≤ c && c ≤ '9') || ('a' ≤ c && c ≤ 'f') || ('A' ≤ c && c ≤ 'F')

/-- Model of `re.match(r"^0x[a-fA-F0-9]{40}$", s)` succeeding on `s`
(the argument is already stripped at the call site, so the `$`-before-final-
newline subtlety of Python cannot arise). -/
def matchesAddr (s : String) : Bool :=
  s.length = 42 && s.data.take 2 = ['0', 'x'] && (s.data.drop 2).all isHexChar

/-! ### Transfer records and the aggregation fold (bot.py lines 150-180) -/

/-- One token-transfer record as consumed by the fold; each field read with
`tx.get(...)` in the source is optional here. -/
structure Tx where
  contractAddress : Option String
  tokenSymbol : Option String
  tokenName : Option String
  tokenDecimal : Option Nat
  value : Option Nat
  toAddr : Option String
deriving DecidableEq

/-- Per-token accumulator, one entry of `tokens_seen` (bot.py lines 165-173). -/
structure TokenSummary where
  symbol : String
  name : String
  address : String
  buys : Nat
  sells : Nat
  buy_amount : ℚ
  sell_amount : ℚ
deriving DecidableEq

/-- Model of `tx.get("contractAddress", "")`, the dict key of a record. -/
def txKey (tx : Tx) : String :=
  tx.contractAddress.getD ""

/-- Model of `int(tx.get("value", 0)) / (10 ** int(tx.get("tokenDecimal", 18)))`. -/
def txAmount (tx : Tx) : ℚ :=
  (tx.value.getD 0 : ℚ) / 10 ^ tx.tokenDecimal.getD 18

/-- Model of `tx.get("to", "").lower() == wallet.lower()` (bot.py line 162). -/
def txIsBuy (wallet : String) (tx : Tx) : Bool :=
  pyLower (tx.toAddr.getD "") = pyLower wallet

/-- The fresh entry inserted when a contract address is first seen
(bot.py lines 165-173). -/
def initSummary (tx : Tx) : TokenSummary :=
  { symbol := tx.tokenSymbol.getD "???"
    name := tx.tokenName.getD "Unknown"
    address := txKey tx
    buys := 0
    sells := 0
    buy_amount := 0
    sell_amount := 0 }

/-- The per-record accumulation (bot.py lines 175-180). -/
def updateSummary (wallet : String) (tx : Tx) (s : TokenSummary) : TokenSummary :=
  if txIsBuy wallet tx then
    { s with buys := s.buys + 1, buy_amount := s.buy_amount + txAmount tx }
  else
    { s with sells := s.sells + 1, sell_amount := s.sell_amount + txAmount tx }

/-- One iteration of the `for tx in token_txns` loop over the dict
`tokens_seen`, modelled as an insertion-ordered association list with unique
keys: update the existing entry for the key, else append a fresh one. -/
def step (wallet : String) : List (String × TokenSummary) → Tx → List (String × TokenSummary)
  | [], tx => [(txKey tx, updateSummary wallet tx (initSummary tx))]
  | (k, v) :: rest, tx =>
    if k = txKey tx then (k, updateSummary wallet tx v) :: rest
    else (k, v) :: step wallet rest tx

/-- The whole fold building `tokens_seen` (bot.py lines 153-180). -/
def tokens_seen (wallet : String) (txns : List Tx) : List (String × TokenSummary) :=
  txns.foldl (step wallet) []

/-- The sort key `x["buys"] + x["sells"]` (bot.py line 198). -/
def activity (t : TokenSummary) : ℕ :=
  t.buys + t.sells

/-- "More active first": the descending order used by
`sorted(..., key=..., reverse=True)`. -/
def moreActive (a b : TokenSummary) : Prop :=
  activity b ≤ activity a

instance : DecidableRel moreActive :=
  fun a b => inferInstanceAs (Decidable (activity b ≤ activity a))

instance : IsTotal TokenSummary moreActive :=
  ⟨fun a b => Nat.le_total (activity b) (activity a)⟩

instance : IsTrans TokenSummary moreActive :=
  ⟨fun _ _ _ hab hbc => le_trans hbc hab⟩

/-- Model of `sorted(tokens_seen.values(), key=lambda x: x["buys"] + x["sells"],
reverse=True)[:8]` (bot.py line 198). Python's sort is stable, and so is
`insertionSort` with this relation. -/
def rankTokens (seen : List (String × TokenSummary)) : List TokenSummary :=
  (List.insertionSort moreActive (seen.map Prod.snd)).take 8

/-- The dominant-action label of one summary (bot.py lines 206-214). -/
def actionOf (t : TokenSummary) : String :=
  if t.sells < t.buys then "BUYING"
  else if t.buys < t.sells then "SELLING"
  else "MIXED"

/-! ### The wallet report (bot.py lines 137-232) -/

/-- The normalized pair data built by `get_token_info` (bot.py lines 103-110). -/
structure PairInfo where
  name : String
  symbol : String
  price : ℚ
  price_change_24h : ℚ
  volume_24h : ℚ
  liquidity : ℚ
deriving DecidableEq

/-- The content of the populated message built by `format_wallet_analysis`:
balance header, ranked token-activity section, optional top-traded section. -/
structure WalletReport where
  wallet : String
  eth_balance : ℚ
  eth_value_usd : ℚ
  ranked : List TokenSummary
  topTraded : Option PairInfo
deriving DecidableEq

/-- Outcome of `format_wallet_analysis`: the "no activity" early return
(bot.py line 146), a populated report, or the uncaught `UnboundLocalError`
raised at line 223 when `sorted_tokens` was never assigned. -/
inductive AnalysisResult
  | noActivity
  | report (r : WalletReport)
  | unboundLocalError
deriving DecidableEq

/-- Model of `format_wallet_analysis` (bot.py lines 137-232), with the already-fetched
upstream data passed in: `eth_price`, `eth_balance`, the transfer list, and
the `get_token_info` lookup used for the top-traded section.

When `tokens_seen` is empty the source skips the `if tokens_seen:` block, so
`sorted_tokens` is never assigned and line 223 (`if sorted_tokens:`) raises
`UnboundLocalError`. -/
def format_wallet_analysis (wallet : String) (eth_price eth_balance : ℚ)
    (token_txns : List Tx) (token_info : String → Option PairInfo) : AnalysisResult :=
  if token_txns = [] ∧ eth_balance = 0 then
    .noActivity
  else if tokens_seen wallet token_txns = [] then
    .unboundLocalError
  else
    .report
      { wallet := wallet
        eth_balance := eth_balance
        eth_value_usd := eth_balance * eth_price
        ranked := rankTokens (tokens_seen wallet token_txns)
        topTraded :=
          match rankTokens (tokens_seen wallet token_txns) with
          | [] => none
          | top :: _ => token_info top.address }

/-! ### Message routing (bot.py lines 295-309) -/

/-- What `handle_message` does with one text message: either invoke the wallet
analysis on an address (the only path that reaches the Gateway), or reply
with the validation-error message. -/
inductive HandleResult
  | analyze (wallet : String)
  | validationError
deriving DecidableEq

/-- Model of `handle_message` (bot.py lines 295-309): strip the text, test the address
regex, and either analyze `text.lower()` or send the corrective message. -/
def handle_message (text : String) : HandleResult :=
  let t := pyStrip text
  if matchesAddr t then .analyze (pyLower t) else .validationError

/-! ### Trending pairs (bot.py lines 116-128) -/

/-- A JSON scalar as it can sit under `volume.h24` in a DexScreener pair. -/
inductive Jval
  | jnum (q : ℚ)
  | jstr (s : String)
  | jnull
deriving DecidableEq

/-- One raw pair record, restricted to the fields `get_trending_base` reads.
`volumeH24 = none` models a missing `volume` object or a missing `h24` key. -/
structure RawPair where
  chainId : Option String
  volumeH24 : Option Jval
  pairAddress : String
deriving DecidableEq

/-- Python truthiness of a JSON scalar, as tested by `x or 0`. -/
def jTruthy : Jval → Bool
  | .jnum q => decide (q ≠ 0)
  | .jstr s => decide (s ≠ "")
  | .jnull => false

/-- Value of a Python float as far as ordering is concerned: a finite value
(kept exact in `ℚ` per the file's float convention, so the rounding of the
decimal-to-double conversion — including overflow of huge exponents to
infinity and underflow to zero — is not modelled), a signed infinity
(`float("inf")`, `float("-Infinity")`), or `float("nan")`. -/
inductive PyFloatVal
  | finite (q : ℚ)
  | posInf
  | negInf
  | nan
deriving DecidableEq

/-- Zero-codepoints of all 66 decimal-digit (`Nd`) decades of the Unicode
14.0 database used by CPython 3.11; `float()` maps any such digit to its
ASCII value before parsing, so e.g. Arabic-Indic or fullwidth numerals
parse. Each decade is the 10 consecutive codepoints for the digits 0-9. -/
def ndZeros : List Nat :=
  [48, 1632, 1776, 1984, 2406, 2534, 2662, 2790, 2918, 3046, 3174, 3302,
   3430, 3558, 3664, 3792, 3872, 4160, 4240, 6112, 6160, 6470, 6608, 6784,
   6800, 6992, 7088, 7232, 7248, 42528, 43216, 43264, 43472, 43504, 43600,
   44016, 65296, 66720, 68912, 69734, 69872, 69942, 70096, 70384, 70736,
   70864, 71248, 71360, 71472, 71904, 72016, 72784, 73040, 73120, 92768,
   92864, 93008, 120782, 120792, 120802, 120812, 120822, 123200, 123632,
   125264, 130032]

/-- Decimal value of a character under Python's digit recognition: its
offset inside the `Nd` decade containing it, if any. -/
def udigitVal (c : Char) : Option Nat :=
  (ndZeros.find? fun z => z ≤ c.toNat && c.toNat ≤ z + 9).map fun z => c.toNat - z

/-- Continue a `digitpart` after its first digit: `(["_"] digit)*`, with an
underscore allowed only directly between two digits (PEP 515, as `float()`
enforces). Accumulates the value and the number of digits read. -/
def digitpartGo : Nat → Nat → List Char → Option (Nat × Nat)
  | acc, n, [] => some (acc, n)
  | acc, n, '_' :: c :: rest =>
      match udigitVal c with
      | some d => digitpartGo (acc * 10 + d) (n + 1) rest
      | none => none
  | acc, n, c :: rest =>
      match udigitVal c with
      | some d => digitpartGo (acc * 10 + d) (n + 1) rest
      | none => none

/-- A nonempty `digitpart`: `digit (["_"] digit)*`. Returns its value and
its digit count (underscores not counted). -/
def parseDigitpart (l : List Char) : Option (Nat × Nat) :=
  match l with
  | [] => none
  | c :: rest =>
      match udigitVal c with
      | some d => digitpartGo d 1 rest
      | none => none

/-- The mantissa of a float literal: `digitpart | digitpart "." [digitpart]
| "." digitpart` (so `"5."`, `".5"` and `"1.25"` parse, `"."` does not). -/
def parseMantissa (l : List Char) : Option ℚ :=
  match l.splitOn '.' with
  | [ip] => (parseDigitpart ip).map fun iv => (iv.1 : ℚ)
  | [[], fp] => (parseDigitpart fp).map fun fv => (fv.1 : ℚ) / 10 ^ fv.2
  | [ip, []] => (parseDigitpart ip).map fun iv => (iv.1 : ℚ)
  | [ip, fp] => do
      let iv ← parseDigitpart ip
      let fv ← parseDigitpart fp
      pure ((iv.1 : ℚ) + (fv.1 : ℚ) / 10 ^ fv.2)
  | _ => none

/-- The exponent part after `e`/`E`: an optional sign and a `digitpart`. -/
def parseExp (l : List Char) : Option ℤ :=
  match l with
  | '-' :: r => (parseDigitpart r).map fun ev => -(ev.1 : ℤ)
  | '+' :: r => (parseDigitpart r).map fun ev => (ev.1 : ℤ)
  | r => (parseDigitpart r).map fun ev => (ev.1 : ℤ)

/-- The body of `float(s)` after whitespace and the leading sign: the
case-insensitive words `inf`/`infinity`/`nan`, or `mantissa [exponent]`. -/
def pyFloatBody (neg : Bool) (l : List Char) : Option PyFloatVal :=
  let low := l.map Char.toLower
  if low = "inf".data ∨ low = "infinity".data then
    some (if neg then .negInf else .posInf)
  else if low = "nan".data then
    some .nan
  else
    match low.splitOn 'e' with
    | [m] => (parseMantissa m).map fun v => .finite (if neg then -v else v)
    | [m, ex] => do
        let v ← parseMantissa m
        let e ← parseExp ex
        pure (PyFloatVal.finite ((if neg then -v else v) * 10 ^ e))
    | _ => none

/-- Model of Python `float(s)` on strings: strip the whitespace `float()`
tolerates, read an optional sign, then parse `inf`/`infinity`/`nan`
(case-insensitive) or a decimal numeral with optional fraction, optional
`e`/`E` exponent, PEP 515 underscores, and Unicode decimal digits.
`none` means `float()` raises. Checked against a CPython 3.11 battery
(exponents, signs, underscores in every position, fullwidth and
Arabic-Indic digits, inf/nan casings, stray whitespace and separators). -/
def pyFloatOfString (s : String) : Option PyFloatVal :=
  match stripEnds isFloatSpace s.data with
  | '-' :: r => pyFloatBody true r
  | '+' :: r => pyFloatBody false r
  | r => pyFloatBody false r

/-- Model of Python `float(v)` on a JSON scalar; `none` means it raises. -/
def pyFloat : Jval → Option PyFloatVal
  | .jnum q => some (.finite q)
  | .jstr s => pyFloatOfString s
  | .jnull => none

/-- The sort key `float(x.get("volume", {}).get("h24", 0) or 0)`
(bot.py line 125); `none` means the key computation raises. -/
def volKey (p : RawPair) : Option PyFloatVal :=
  let v := p.volumeH24.getD (.jnum 0)
  pyFloat (if jTruthy v then v else .jnum 0)

/-- The key of a pair in the branch where every key computed (`getD` is
never exercised there; the default also realizes the claim's
"treated as 0" reading used by `trending_claim`). -/
def volKeyD (p : RawPair) : PyFloatVal :=
  (volKey p).getD (.finite 0)

/-- Rank of a float value's class: `-inf` below all finite values, `+inf`
above them. Python's `nan` compares false in both directions, so `sorted`
subjects it to no order at all; the model totalizes by ranking it above
`+inf`, and no claim theorem constrains the arrangement of nan keys. -/
def pyTag : PyFloatVal → Nat
  | .negInf => 0
  | .finite _ => 1
  | .posInf => 2
  | .nan => 3

/-- The finite payload of a float value (0 for the non-finite classes). -/
def pyQ : PyFloatVal → ℚ
  | .finite q => q
  | _ => 0

/-- Ascending comparison on float values: by class rank, then by the finite
payload. On nan-free values this coincides with Python's float order. -/
def pyLe (v w : PyFloatVal) : Prop :=
  pyTag v < pyTag w ∨ (pyTag v = pyTag w ∧ pyQ v ≤ pyQ w)

instance : DecidableRel pyLe :=
  fun v w =>
    inferInstanceAs (Decidable (pyTag v < pyTag w ∨ (pyTag v = pyTag w ∧ pyQ v ≤ pyQ w)))

/-- "Higher 24h volume first": the descending order of the sort. -/
def morVol (a b : RawPair) : Prop :=
  pyLe (volKeyD b) (volKeyD a)

instance : DecidableRel morVol :=
  fun a b => inferInstanceAs (Decidable (pyLe (volKeyD b) (volKeyD a)))

instance : IsTotal RawPair morVol :=
  ⟨fun a b => by
    unfold morVol pyLe
    rcases Nat.lt_trichotomy (pyTag (volKeyD b)) (pyTag (volKeyD a)) with h | h | h
    · exact Or.inl (Or.inl h)
    · rcases le_total (pyQ (volKeyD b)) (pyQ (volKeyD a)) with hq | hq
      · exact Or.inl (Or.inr ⟨h, hq⟩)
      · exact Or.inr (Or.inr ⟨h.symm, hq⟩)
    · exact Or.inr (Or.inl h)⟩

instance : IsTrans RawPair morVol :=
  ⟨fun a b c hab hbc => by
    unfold morVol pyLe at hab hbc ⊢
    rcases hab with h1 | ⟨h1, hq1⟩ <;> rcases hbc with h2 | ⟨h2, hq2⟩
    · exact Or.inl (lt_trans h2 h1)
    · exact Or.inl (by rw [h2]; exact h1)
    · exact Or.inl (by rw [← h1]; exact h2)
    · exact Or.inr ⟨h2.trans h1, hq2.trans hq1⟩⟩

/-- Model of `[p for p in pairs if p.get("chainId") == "base"]` (bot.py line 124). -/
def basePairs (pairs : List RawPair) : List RawPair :=
  pairs.filter fun p => decide (p.chainId = some "base")

/-- Model of `get_trending_base` (bot.py lines 116-128), applied to the decoded
`pairs` array of the response. The whole body sits in a `try` whose `except`
returns `[]`, so if computing any sort key raises (a truthy but unparseable
volume string), the call returns the empty list. -/
def get_trending_base (pairs : List RawPair) : List RawPair :=
  match (basePairs pairs).mapM volKey with
  | none => []
  | some _ => (List.insertionSort morVol (basePairs pairs)).take 10

/-- Modelled from the claim's words (C7): keep the pairs whose `chainId`
equals `"base"`, order them descending by 24-hour volume with missing or
unparseable volume treated as 0, and return the first 10. Stated for
comparison with `get_trending_base`, which is the code's behaviour. -/
def trending_claim (pairs : List RawPair) : List RawPair :=
  (List.insertionSort morVol (basePairs pairs)).take 10

/-! ### Observation helpers over the accumulator -/

/-- Dict lookup on the insertion-ordered association list. -/
def lookupKey (a : String) : List (String × TokenSummary) → Option TokenSummary
  | [] => none
  | (k, v) :: rest => if k = a then some v else lookupKey a rest

/-- Total activity recorded across all accumulated summaries. -/
def totalCount (l : List (String × TokenSummary)) : ℕ :=
  (l.map fun kv => activity kv.2).sum

/-- Activity recorded under one contract address (0 when absent). -/
def cntAt (a : String) (l : List (String × TokenSummary)) : ℕ :=
  match lookupKey a l with
  | some s => activity s
  | none => 0

/-- Buy amount recorded under one contract address (0 when absent). -/
def buyAmtAt (a : String) (l : List (String × TokenSummary)) : ℚ :=
  match lookupKey a l with
  | some s => s.buy_amount
  | none => 0

/-- Sell amount recorded under one contract address (0 when absent). -/
def sellAmtAt (a : String) (l : List (String × TokenSummary)) : ℚ :=
  match lookupKey a l with
  | some s => s.sell_amount
  | none => 0

/-! ### Concrete inputs used by the witnesses -/

/-- A well-formed incoming transfer: 300 minor units of a 2-decimal token
sent to the queried wallet (differently cased). -/
def txWit : Tx :=
  { contractAddress := some "0xtok"
    tokenSymbol := some "TOK"
    tokenName := some "Token"
    tokenDecimal := some 2
    value := some 300
    toAddr := some "0xME" }

/-- The summary accumulated from `txWit` alone. -/
def sWit : TokenSummary :=
  updateSummary "0xme" txWit (initSummary txWit)

/-- The fresh summary for `txWit` before accumulation. -/
def s0Wit : TokenSummary :=
  initSummary txWit

/-- A transfer record with every optional field absent. -/
def txNone : Tx :=
  { contractAddress := none
    tokenSymbol := none
    tokenName := none
    tokenDecimal := none
    value := none
    toAddr := none }

/-- The report produced for wallet `"0xme"` with price 2, balance 1, the
single transfer `txWit`, and a pair lookup that finds nothing. -/
def rWit : WalletReport :=
  { wallet := "0xme"
    eth_balance := 1
    eth_value_usd := (1 : ℚ) * 2
    ranked := rankTokens (tokens_seen "0xme" [txWit])
    topTraded := none }

/-- A pair on chain `base` whose `volume.h24` is a truthy but unparseable
string, so computing its sort key raises in the source. -/
def pairAbc : RawPair :=
  { chainId := some "base", volumeH24 := some (.jstr "abc"), pairAddress := "P" }

/-- Clean trending input: two `base` pairs with numeric volumes and one
pair on another chain. -/
def pairsWit : List RawPair :=
  [ { chainId := some "base", volumeH24 := some (.jnum 50), pairAddress := "B1" }
  , { chainId := some "base", volumeH24 := some (.jnum 100), pairAddress := "B2" }
  , { chainId := some "ethereum", volumeH24 := some (.jnum 500), pairAddress := "E" } ]

/-! ### Helper lemmas about the accumulation step -/

theorem activity_updateSummary (w : String) (tx : Tx) (s : TokenSummary) :
    activity (updateSummary w tx s) = activity s + 1 := by
  unfold updateSummary activity
  split_ifs <;> simp <;> omega

theorem updateSummary_buy_amount (w : String) (tx : Tx) (s : TokenSummary) :
    (updateSummary w tx s).buy_amount =
      s.buy_amount + if txIsBuy w tx then txAmount tx else 0 := by
  unfold updateSummary
  split_ifs <;> simp

theorem updateSummary_sell_amount (w : String) (tx : Tx) (s : TokenSummary) :
    (updateSummary w tx s).sell_amount =
      s.sell_amount + if txIsBuy w tx then 0 else txAmount tx := by
  unfold updateSummary
  split_ifs <;> simp

theorem activity_initSummary (tx : Tx) : activity (initSummary tx) = 0 := rfl

theorem totalCount_step (w : String) (tx : Tx) :
    ∀ seen, totalCount (step w seen tx) = totalCount seen + 1 := by
  intro seen
  induction seen with
  | nil =>
      simp [step, totalCount, activity_updateSummary, activity_initSummary]
  | cons kv rest ih =>
      obtain ⟨k, v⟩ := kv
      by_cases hk : k = txKey tx
      · simp [step, hk, totalCount, activity_updateSummary]
        omega
      · simp only [step, if_neg hk, totalCount, List.map_cons, List.sum_cons] at ih ⊢
        omega

theorem totalCount_foldl (w : String) (txns : List Tx) :
    ∀ seen, totalCount (txns.foldl (step w) seen) = totalCount seen + txns.length := by
  induction txns with
  | nil => intro seen; simp
  | cons tx rest ih =>
      intro seen
      rw [List.foldl_cons, ih, totalCount_step]
      simp
      omega

theorem sum_buys_add_sum_sells (l : List (String × TokenSummary)) :
    (l.map fun kv => kv.2.buys).sum + (l.map fun kv => kv.2.sells).sum = totalCount l := by
  induction l with
  | nil => simp [totalCount]
  | cons kv rest ih =>
      simp only [totalCount, List.map_cons, List.sum_cons, activity] at ih ⊢
      omega

theorem lookupKey_step (w : String) (tx : Tx) :
    ∀ (seen : List (String × TokenSummary)) (a : String),
      lookupKey a (step w seen tx) =
        if a = txKey tx then
          some (updateSummary w tx ((lookupKey (txKey tx) seen).getD (initSummary tx)))
        else lookupKey a seen := by
  intro seen
  induction seen with
  | nil =>
      intro a
      by_cases h : a = txKey tx
      · subst h; simp [step, lookupKey]
      · simp [step, lookupKey, h, Ne.symm h]
  | cons kv rest ih =>
      intro a
      obtain ⟨k, v⟩ := kv
      by_cases hk : k = txKey tx
      · subst hk
        by_cases ha : a = txKey tx
        · subst ha
          simp [step, lookupKey]
        · simp [step, lookupKey, ha, Ne.symm ha]
      · by_cases ha : a = txKey tx
        · subst ha
          simp [step, lookupKey, hk, ih]
        · by_cases hka : k = a
          · subst hka
            simp [step, lookupKey, hk, ha]
          · simp [step, lookupKey, hk, ha, hka, ih]

theorem cntAt_step (w : String) (tx : Tx) (seen : List (String × TokenSummary)) (a : String) :
    cntAt a (step w seen tx) = cntAt a seen + if a = txKey tx then 1 else 0 := by
  unfold cntAt
  rw [lookupKey_step]
  by_cases h : a = txKey tx
  · rw [if_pos h, h]
    cases hl : lookupKey (txKey tx) seen <;>
      simp [hl, activity_updateSummary, activity_initSummary]
  · simp [h]

theorem buyAmtAt_step (w : String) (tx : Tx) (seen : List (String × TokenSummary)) (a : String) :
    buyAmtAt a (step w seen tx) =
      buyAmtAt a seen + if a = txKey tx ∧ txIsBuy w tx then txAmount tx else 0 := by
  unfold buyAmtAt
  rw [lookupKey_step]
  by_cases h : a = txKey tx
  · rw [if_pos h, h]
    cases hl : lookupKey (txKey tx) seen <;>
      cases hb : txIsBuy w tx <;>
        simp [hl, hb, updateSummary_buy_amount, initSummary]
  · simp [h]

theorem sellAmtAt_step (w : String) (tx : Tx) (seen : List (String × TokenSummary)) (a : String) :
    sellAmtAt a (step w seen tx) =
      sellAmtAt a seen + if a = txKey tx ∧ txIsBuy w tx = false then txAmount tx else 0 := by
  unfold sellAmtAt
  rw [lookupKey_step]
  by_cases h : a = txKey tx
  · rw [if_pos h, h]
    cases hl : lookupKey (txKey tx) seen <;>
      cases hb : txIsBuy w tx <;>
        simp [hl, hb, updateSummary_sell_amount, initSummary]
  · simp [h]

theorem cntAt_foldl (w : String) (a : String) (txns : List Tx) :
    ∀ seen, cntAt a (txns.foldl (step w) seen) =
      cntAt a seen + (txns.filter fun tx => decide (txKey tx = a)).length := by
  induction txns with
  | nil => intro seen; simp
  | cons tx rest ih =>
      intro seen
      rw [List.foldl_cons, ih, cntAt_step, List.filter_cons]
      by_cases h : txKey tx = a
      · simp [h]
        omega
      · simp [h, Ne.symm h]

theorem buyAmtAt_foldl (w : String) (a : String) (txns : List Tx) :
    ∀ seen, buyAmtAt a (txns.foldl (step w) seen) =
      buyAmtAt a seen +
        ((txns.filter fun tx => txIsBuy w tx && decide (txKey tx = a)).map txAmount).sum := by
  induction txns with
  | nil => intro seen; simp
  | cons tx rest ih =>
      intro seen
      rw [List.foldl_cons, ih, buyAmtAt_step, List.filter_cons]
      by_cases h : txKey tx = a
      · cases hb : txIsBuy w tx <;> simp [h, hb] <;> ring
      · cases hb : txIsBuy w tx <;> simp [h, Ne.symm h, hb]

theorem sellAmtAt_foldl (w : String) (a : String) (txns : List Tx) :
    ∀ seen, sellAmtAt a (txns.foldl (step w) seen) =
      sellAmtAt a seen +
        ((txns.filter fun tx => !txIsBuy w tx && decide (txKey tx = a)).map txAmount).sum := by
  induction txns with
  | nil => intro seen; simp
  | cons tx rest ih =>
      intro seen
      rw [List.foldl_cons, ih, sellAmtAt_step, List.filter_cons]
      by_cases h : txKey tx = a
      · cases hb : txIsBuy w tx <;> simp [h, hb] <;> ring
      · cases hb : txIsBuy w tx <;> simp [h, Ne.symm h, hb]

/-! ### Claim theorems -/

/-- C2: over any transfer list, the buy and sell counters across all
per-token summaries sum to the number of records; and per contract address,
`buyCount + sellCount` is the number of records keyed there while
`buy_amount`/`sell_amount` are the sums of the decimal-adjusted values of
the matching records. -/
theorem C2_fold_count_and_amount_invariants (w : String) (txns : List Tx) :
    ((tokens_seen w txns).map fun kv => kv.2.buys).sum +
        ((tokens_seen w txns).map fun kv => kv.2.sells).sum = txns.length ∧
    ∀ a s, lookupKey a (tokens_seen w txns) = some s →
      s.buys + s.sells = (txns.filter fun tx => decide (txKey tx = a)).length ∧
      s.buy_amount =
        ((txns.filter fun tx => txIsBuy w tx && decide (txKey tx = a)).map txAmount).sum ∧
      s.sell_amount =
        ((txns.filter fun tx => !txIsBuy w tx && decide (txKey tx = a)).map txAmount).sum := by
  constructor
  · rw [sum_buys_add_sum_sells]
    have h := totalCount_foldl w txns []
    simpa [tokens_seen, totalCount] using h
  · intro a s hs
    have h1 := cntAt_foldl w a txns []
    have h2 := buyAmtAt_foldl w a txns []
    have h3 := sellAmtAt_foldl w a txns []
    simp only [tokens_seen] at hs
    rw [cntAt, hs] at h1
    rw [buyAmtAt, hs] at h2
    rw [sellAmtAt, hs] at h3
    simp only [cntAt, buyAmtAt, sellAmtAt, lookupKey] at h1 h2 h3
    exact ⟨by simpa [activity, tokens_seen] using h1,
           by simpa [tokens_seen] using h2,
           by simpa [tokens_seen] using h3⟩

theorem C2_fold_count_and_amount_invariants_witness :
    sWit.buys + sWit.sells = ([txWit].filter fun tx => decide (txKey tx = "0xtok")).length :=
  ((C2_fold_count_and_amount_invariants "0xme" [txWit]).2 "0xtok" sWit rfl).1

/-- C3: `format_wallet_analysis` returns the "no activity" signal (a result
distinct by constructor from any populated report) exactly when the transfer
list is empty and the ETH balance is exactly zero. -/
theorem C3_no_activity_iff_empty_and_zero (w : String) (p b : ℚ) (txns : List Tx)
    (info : String → Option PairInfo) :
    format_wallet_analysis w p b txns info = .noActivity ↔ txns = [] ∧ b = 0 := by
  unfold format_wallet_analysis
  split_ifs with h1 h2 <;> simp [h1]

theorem C3_no_activity_iff_empty_and_zero_witness :
    format_wallet_analysis "0xme" 100 0 [] (fun _ => none) = .noActivity :=
  (C3_no_activity_iff_empty_and_zero "0xme" 100 0 [] (fun _ => none)).mpr ⟨rfl, rfl⟩

/-- C4: a record is classified as a buy exactly when its `to` field equals
the wallet case-insensitively; the matching counter and amount accumulator
receive the record's raw value divided by `10 ^ tokenDecimal`; and the
spec's example record (value `10^18`, 18 decimals) adjusts to 1. -/
theorem C4_decimal_adjust_and_buy_classification (w : String) (tx : Tx) (s : TokenSummary) :
    (txIsBuy w tx = true ↔ pyLower (tx.toAddr.getD "") = pyLower w) ∧
    (txIsBuy w tx = true →
      updateSummary w tx s =
        { s with buys := s.buys + 1,
                 buy_amount := s.buy_amount +
                   (tx.value.getD 0 : ℚ) / 10 ^ tx.tokenDecimal.getD 18 }) ∧
    (txIsBuy w tx = false →
      updateSummary w tx s =
        { s with sells := s.sells + 1,
                 sell_amount := s.sell_amount +
                   (tx.value.getD 0 : ℚ) / 10 ^ tx.tokenDecimal.getD 18 }) ∧
    txAmount { contractAddress := none, tokenSymbol := none, tokenName := none,
               tokenDecimal := some 18, value := some 1000000000000000000,
               toAddr := none } = 1 := by
  refine ⟨by simp [txIsBuy], fun h => ?_, fun h => ?_, ?_⟩
  · simp [updateSummary, h, txAmount]
  · simp [updateSummary, h, txAmount]
  · simp [txAmount]
    norm_num

theorem C4_decimal_adjust_and_buy_classification_witness :
    updateSummary "0xme" txWit s0Wit =
      { s0Wit with buys := s0Wit.buys + 1,
                   buy_amount := s0Wit.buy_amount +
                     (txWit.value.getD 0 : ℚ) / 10 ^ txWit.tokenDecimal.getD 18 } :=
  (C4_decimal_adjust_and_buy_classification "0xme" txWit s0Wit).2.1 (by decide)

/-- C1: the spec says that with no transfer records and a strictly positive
balance a balance-only report comes back; the code instead raises
`UnboundLocalError` at line 223, because `sorted_tokens` is only assigned
inside the `if tokens_seen:` block that was skipped. Evaluating the model at
the spec's own example (balance 2.5, no transfers) shows the crash. -/
theorem C1_empty_transfers_positive_balance_crash :
    format_wallet_analysis "0xd8da6bf26964af9d7eed9e03e53415d37aa96045" 100 (5 / 2) []
      (fun _ => none) = .unboundLocalError := by
  unfold format_wallet_analysis
  split_ifs with h1 h2
  · exact absurd h1.2 (by norm_num)
  · rfl
  · exact absurd rfl h2

/-- C5: in every populated report, the ranked section is the stable
descending sort of the accumulated summaries by `buys + sells`, truncated to
the first 8; the sort is a permutation of the accumulator's values, it is
sorted for the descending order, and every retained summary has activity at
least that of every dropped one. -/
theorem C5_ranking_sorted_truncated (w : String) (p b : ℚ) (txns : List Tx)
    (info : String → Option PairInfo) (r : WalletReport)
    (h : format_wallet_analysis w p b txns info = .report r) :
    r.ranked = (List.insertionSort moreActive ((tokens_seen w txns).map Prod.snd)).take 8 ∧
    List.Perm (List.insertionSort moreActive ((tokens_seen w txns).map Prod.snd))
      ((tokens_seen w txns).map Prod.snd) ∧
    List.Sorted moreActive (List.insertionSort moreActive ((tokens_seen w txns).map Prod.snd)) ∧
    ∀ a ∈ r.ranked,
      ∀ d ∈ (List.insertionSort moreActive ((tokens_seen w txns).map Prod.snd)).drop 8,
        activity d ≤ activity a := by
  have hr : r.ranked = rankTokens (tokens_seen w txns) := by
    unfold format_wallet_analysis at h
    split_ifs at h with h1 h2
    injection h with h3
    rw [← h3]
  refine ⟨by rw [hr]; rfl, List.perm_insertionSort _ _, List.sorted_insertionSort _ _, ?_⟩
  intro a ha d hd
  have hs := List.sorted_insertionSort moreActive ((tokens_seen w txns).map Prod.snd)
  have hp : List.Pairwise moreActive
      ((List.insertionSort moreActive ((tokens_seen w txns).map Prod.snd)).take 8 ++
        (List.insertionSort moreActive ((tokens_seen w txns).map Prod.snd)).drop 8) := by
    rw [List.take_append_drop]
    exact hs
  have ha2 : a ∈ (List.insertionSort moreActive ((tokens_seen w txns).map Prod.snd)).take 8 := by
    rw [hr] at ha
    exact ha
  exact (List.pairwise_append.mp hp).2.2 a ha2 d hd

theorem C5_ranking_sorted_truncated_witness :
    rWit.ranked =
      (List.insertionSort moreActive ((tokens_seen "0xme" [txWit]).map Prod.snd)).take 8 :=
  (C5_ranking_sorted_truncated "0xme" 2 1 [txWit] (fun _ => none) rWit rfl).1

/-- C6: every summary rendered in a report is labelled "BUYING" when its buy
count strictly exceeds its sell count, "SELLING" when the sell count
strictly exceeds the buy count, and "MIXED" when the two are equal. -/
theorem C6_dominant_action_labels (w : String) (p b : ℚ) (txns : List Tx)
    (info : String → Option PairInfo) (r : WalletReport) (t : TokenSummary)
    (h1 : format_wallet_analysis w p b txns info = .report r) (h2 : t ∈ r.ranked) :
    (t.sells < t.buys → actionOf t = "BUYING") ∧
    (t.buys < t.sells → actionOf t = "SELLING") ∧
    (t.buys = t.sells → actionOf t = "MIXED") := by
  unfold actionOf
  refine ⟨fun h => ?_, fun h => ?_, fun h => ?_⟩
  · rw [if_pos h]
  · rw [if_neg (by omega), if_pos h]
  · rw [if_neg (by omega), if_neg (by omega)]

theorem C6_dominant_action_labels_witness : actionOf sWit = "BUYING" :=
  (C6_dominant_action_labels "0xme" 2 1 [txWit] (fun _ => none) rWit sWit rfl
    (by rw [show rWit.ranked = [sWit] from rfl]; exact List.mem_singleton.mpr rfl)).1
    (by decide)

theorem pyLower_empty : pyLower "" = "" := rfl

theorem pyLower_eq_empty_iff (s : String) : pyLower s = "" ↔ s = "" := by
  obtain ⟨l⟩ := s
  constructor
  · intro h
    cases l with
    | nil => rfl
    | cons c cs =>
        have h2 : (c :: cs).map Char.toLower = ([] : List Char) := congrArg String.data h
        simp at h2
  · intro h
    rw [h]
    exact pyLower_empty

/-- C9: the fold is total on records with absent optional fields, with the
source's `dict.get` defaults: 18 decimals, zero value, empty-string contract
key, and (for any nonempty wallet string, as every routed wallet is) a
missing `to` field classified as a sell. -/
theorem C9_fold_defaults (w : String) (tx : Tx) (hw : w ≠ "") :
    (tx.tokenDecimal = none → txAmount tx = (tx.value.getD 0 : ℚ) / 10 ^ 18) ∧
    (tx.value = none → txAmount tx = 0) ∧
    (tx.contractAddress = none → txKey tx = "") ∧
    (tx.toAddr = none → txIsBuy w tx = false) := by
  refine ⟨fun h => ?_, fun h => ?_, fun h => ?_, fun h => ?_⟩
  · simp [txAmount, h]
  · simp [txAmount, h]
  · simp [txKey, h]
  · simp only [txIsBuy, h, Option.getD_none, pyLower_empty]
    simp only [decide_eq_false_iff_not]
    intro hc
    exact hw ((pyLower_eq_empty_iff w).mp hc.symm)

theorem C9_fold_defaults_witness :
    txAmount txNone = 0 ∧ txKey txNone = "" ∧ txIsBuy "0xme" txNone = false := by
  obtain h := C9_fold_defaults "0xme" txNone (by decide)
  exact ⟨h.2.1 rfl, h.2.2.1 rfl, h.2.2.2 rfl⟩

/-- C7 counterexample: on a single `base` pair whose `volume.h24` is the
truthy unparseable string `"abc"`, the claim ("unparseable volume treated as
0") would keep the pair, but the code's `float()` raises inside the `try`
and the whole call returns the empty list instead. -/
theorem C7_trending_counterexample :
    get_trending_base [pairAbc] = [] ∧
    trending_claim [pairAbc] = [pairAbc] ∧
    get_trending_base [pairAbc] ≠ trending_claim [pairAbc] := by
  refine ⟨rfl, rfl, by decide⟩

/-- C7 amended: `get_trending_base` keeps exactly the pairs whose `chainId`
equals `"base"` (case-sensitively), orders them descending by 24-hour volume
with missing or falsy volume treated as 0, and returns the first 10 — except
that when computing some kept pair's volume key raises (a truthy volume
string `float()` cannot parse), the call returns the empty list; it likewise
returns the empty list, not an error, when no pair matches. The ordering
statements are scoped to key lists without `nan` (Python subjects nan keys
to no order); truncation, membership and the empty/raise cases hold for all
inputs. -/
theorem C7_trending_filter_sort_truncate (pairs : List RawPair) :
    (∀ ks, (basePairs pairs).mapM volKey = some ks → PyFloatVal.nan ∉ ks →
      get_trending_base pairs = (List.insertionSort morVol (basePairs pairs)).take 10 ∧
      List.Sorted morVol (List.insertionSort morVol (basePairs pairs))) ∧
    ((basePairs pairs).mapM volKey = none → get_trending_base pairs = []) ∧
    List.Perm (List.insertionSort morVol (basePairs pairs)) (basePairs pairs) ∧
    (get_trending_base pairs).length ≤ 10 ∧
    (∀ q ∈ get_trending_base pairs, q.chainId = some "base" ∧ q ∈ pairs) ∧
    (basePairs pairs = [] → get_trending_base pairs = []) := by
  have hperm := List.perm_insertionSort morVol (basePairs pairs)
  have hmain : ∀ q ∈ get_trending_base pairs, q.chainId = some "base" ∧ q ∈ pairs := by
    intro q hq
    have hq2 : q ∈ basePairs pairs := by
      unfold get_trending_base at hq
      cases hm : (basePairs pairs).mapM volKey with
      | none => rw [hm] at hq; simp at hq
      | some l =>
          rw [hm] at hq
          exact hperm.mem_iff.mp (List.take_subset 10 _ hq)
    have hf := List.mem_filter.mp hq2
    exact ⟨of_decide_eq_true hf.2, hf.1⟩
  refine ⟨?_, ?_, hperm, ?_, hmain, ?_⟩
  · intro ks hks _
    refine ⟨?_, List.sorted_insertionSort _ _⟩
    unfold get_trending_base
    rw [hks]
  · intro hm
    unfold get_trending_base
    rw [hm]
  · unfold get_trending_base
    cases hm : (basePairs pairs).mapM volKey with
    | none => simp
    | some l =>
        rw [List.length_take]
        exact Nat.min_le_left _ _
  · intro hbp
    unfold get_trending_base
    rw [hbp]
    rfl

theorem C7_trending_filter_sort_truncate_witness :
    get_trending_base pairsWit = (List.insertionSort morVol (basePairs pairsWit)).take 10 :=
  ((C7_trending_filter_sort_truncate pairsWit).1
    [.finite 50, .finite 100] (by decide) (by decide)).1

/-- C8 counterexample: the handler strips the text before the regex check,
so a message with a leading space triggers wallet analysis although the raw
text does not match `0x` followed by 40 hex characters. -/
theorem C8_address_gate_counterexample :
    handle_message " 0xd8dA6BF26964aF9D7eEd9e03E53415D37aA96045" =
      .analyze "0xd8da6bf26964af9d7eed9e03e53415d37aa96045" ∧
    matchesAddr " 0xd8dA6BF26964aF9D7eEd9e03E53415D37aA96045" = false := by
  exact ⟨by decide, by decide⟩

/-- C8 amended: wallet analysis is triggered exactly when the text, after
stripping surrounding whitespace, matches `0x` followed by exactly 40 hex
characters; any other text gets the validation-error reply and the analysis
(the only Gateway path) is never invoked; the spec's accept/reject examples
behave as stated. -/
theorem C8_address_gate (text : String) :
    ((∃ w, handle_message text = .analyze w) ↔ matchesAddr (pyStrip text) = true) ∧
    (matchesAddr (pyStrip text) = false → handle_message text = .validationError) ∧
    matchesAddr "0xd8dA6BF26964aF9D7eEd9e03E53415D37aA96045" = true ∧
    matchesAddr "0x123" = false ∧
    matchesAddr "not-an-address" = false := by
  refine ⟨?_, ?_, by decide, by decide, by decide⟩
  · by_cases h : matchesAddr (pyStrip text) = true
    · simp [handle_message, h]
    · simp [handle_message, h]
  · intro h
    simp [handle_message, h]

theorem C8_address_gate_witness :
    handle_message "hello" = .validationError :=
  (C8_address_gate "hello").2.1 (by decide)

/-- C10: for any two free-text messages that both pass the address check and
are casings of the same address, the handler lowercases before invoking the
analysis, so both invoke it on the same wallet string and, for identical
upstream data, the analysis result is identical. -/
theorem C10_casing_insensitive_analysis (t1 t2 : String)
    (h1 : matchesAddr (pyStrip t1) = true) (h2 : matchesAddr (pyStrip t2) = true)
    (hc : pyLower (pyStrip t1) = pyLower (pyStrip t2)) :
    handle_message t1 = .analyze (pyLower (pyStrip t1)) ∧
    handle_message t2 = .analyze (pyLower (pyStrip t1)) ∧
    ∀ (p b : ℚ) (txns : List Tx) (info : String → Option PairInfo),
      format_wallet_analysis (pyLower (pyStrip t1)) p b txns info =
        format_wallet_analysis (pyLower (pyStrip t2)) p b txns info := by
  refine ⟨by simp [handle_message, h1], by simp [handle_message, h2, hc], ?_⟩
  intro p b txns info
  rw [hc]

theorem C10_casing_insensitive_analysis_witness :
    handle_message "0xD8DA6BF26964AF9D7EED9E03E53415D37AA96045" =
      .analyze (pyLower (pyStrip "0xD8DA6BF26964AF9D7EED9E03E53415D37AA96045")) ∧
    handle_message "0xd8da6bf26964af9d7eed9e03e53415d37aa96045" =
      .analyze (pyLower (pyStrip "0xD8DA6BF26964AF9D7EED9E03E53415D37AA96045")) := by
  obtain h := C10_casing_insensitive_analysis
    "0xD8DA6BF26964AF9D7EED9E03E53415D37AA96045"
    "0xd8da6bf26964af9d7eed9e03e53415d37aa96045"
    (by decide) (by decide) (by decide)
  exact ⟨h.1, h.2.1⟩

end Bt
